import Mathlib

/-!
# Verification of the Reolink CCTV clip filter (`reolink_video.py`)

Shallow embedding of the `ReolinkVideo` class and its helpers, together with
proofs of the specification's claims about it.

Conventions:
* Python `datetime` values are modelled by `PyDateTime` (numeric fields).
* `datetime.strptime(s, "%Y%m%d%H%M%S")` is modelled faithfully after
  CPython's `_strptime` machinery: the format is compiled to the regex
  `(\d\d\d\d)(1[0-2]|0[1-9]|[1-9])(3[01]|[12]\d|0[1-9]|[1-9])`
  `(2[0-3]|[0-1]\d|\d)([0-5]\d|\d)(6[0-1]|[0-5]\d|\d)`,
  matched with ordered-alternative backtracking; the match must consume the
  whole string ("unconverted data remains" otherwise), and the resulting
  fields must be accepted by the `datetime` constructor (calendar-valid day,
  second at most 59, year at least 1).
* Exceptions are modelled with `Except`; a bare `try/except` becomes a
  `match` on the fallible part.
* External collaborators (cv2 frame decoding/encoding, the deepstack
  detection capability, shapely geometry) are modelled as parameters, except
  where a claim is about their contract, in which case a definition
  explicitly marked "Modelled from the spec" stands in for them.
-/

/-! ## Data model: detections -/

/-- One detection returned by the detection capability: a label, a confidence
score and an axis-aligned bounding box. -/
structure Detection where
  label : String
  confidence : ℚ
  x_min : ℚ
  y_min : ℚ
  x_max : ℚ
  y_max : ℚ
deriving DecidableEq, Repr

/-- The ordered collection of detections for one frame
(`deepstack_sdk.structs.DetectionResponse`). -/
structure DetectionResponse where
  detections : List Detection
deriving DecidableEq, Repr

/-! ## Python `datetime.strptime` with format `"%Y%m%d%H%M%S"` -/

/-- A Python datetime value, by its components. -/
structure PyDateTime where
  year : Nat
  month : Nat
  day : Nat
  hour : Nat
  minute : Nat
  second : Nat
deriving DecidableEq, Repr

/-- Character class: any decimal digit (regex `\d`). -/
def dd : Char → Bool := Char.isDigit

/-- Character class: exactly the character `x`. -/
def chEq (x : Char) : Char → Bool := fun c => c = x

/-- Character class: a character in the inclusive range `lo`–`hi`. -/
def chRng (lo hi : Char) : Char → Bool := fun c => decide (lo ≤ c ∧ c ≤ hi)

/-- Match a fixed-length sequence of character classes against a prefix of the
input, returning the consumed characters and the rest. -/
def matchPat : List (Char → Bool) → List Char → Option (List Char × List Char)
  | [], cs => some ([], cs)
  | _ :: _, [] => none
  | p :: ps, c :: cs =>
    if p c then
      match matchPat ps cs with
      | some (m, r) => some (c :: m, r)
      | none => none
    else none

/-- Match a sequence of regex groups (each a list of alternatives, tried in
order, as Python `re` does) against a prefix of the input, with backtracking:
the first combination of alternatives under which all remaining groups match
wins.  Returns the captured group texts and the remaining input. -/
def matchDirs : List (List (List (Char → Bool))) → List Char →
    Option (List (List Char) × List Char)
  | [], cs => some ([], cs)
  | d :: ds, cs =>
    d.findSome? fun pat =>
      match matchPat pat cs with
      | none => none
      | some (m, r) =>
        match matchDirs ds r with
        | none => none
        | some (ms, r2) => some (m :: ms, r2)

/-- CPython `_strptime` regex for `%Y`: exactly four digits. -/
def dirYear : List (List (Char → Bool)) := [[dd, dd, dd, dd]]

/-- CPython `_strptime` regex for `%m`: `1[0-2]|0[1-9]|[1-9]`. -/
def dirMonth : List (List (Char → Bool)) :=
  [[chEq '1', chRng '0' '2'], [chEq '0', chRng '1' '9'], [chRng '1' '9']]

/-- CPython `_strptime` regex for `%d`: `3[01]|[12]\d|0[1-9]|[1-9]`. -/
def dirDay : List (List (Char → Bool)) :=
  [[chEq '3', chRng '0' '1'], [chRng '1' '2', dd], [chEq '0', chRng '1' '9'],
    [chRng '1' '9']]

/-- CPython `_strptime` regex for `%H`: `2[0-3]|[0-1]\d|\d`. -/
def dirHour : List (List (Char → Bool)) :=
  [[chEq '2', chRng '0' '3'], [chRng '0' '1', dd], [dd]]

/-- CPython `_strptime` regex for `%M`: `[0-5]\d|\d`. -/
def dirMinute : List (List (Char → Bool)) := [[chRng '0' '5', dd], [dd]]

/-- CPython `_strptime` regex for `%S`: `6[0-1]|[0-5]\d|\d`. -/
def dirSecond : List (List (Char → Bool)) :=
  [[chEq '6', chRng '0' '1'], [chRng '0' '5', dd], [dd]]

/-- The compiled regex for `REOLINK_TIMESTAMP_FORMAT = "%Y%m%d%H%M%S"`. -/
def reolinkFormatDirs : List (List (List (Char → Bool))) :=
  [dirYear, dirMonth, dirDay, dirHour, dirMinute, dirSecond]

/-- Numeric value of a string of decimal digits. -/
def natOfDigits (cs : List Char) : Nat :=
  cs.foldl (fun n c => n * 10 + (c.toNat - 48)) 0

/-- Gregorian leap year, as `calendar.isleap` / `datetime` use it. -/
def isLeapYear (y : Nat) : Bool :=
  y % 4 == 0 && (y % 100 != 0 || y % 400 == 0)

/-- Number of days in the given month of the given year. -/
def daysInMonth (y m : Nat) : Nat :=
  if m = 2 then (if isLeapYear y then 29 else 28)
  else if m = 4 ∨ m = 6 ∨ m = 9 ∨ m = 11 then 30
  else 31

/-- Model of `datetime.strptime(s, "%Y%m%d%H%M%S")`: match the compiled regex
against the whole string, then construct the datetime, which additionally
requires a calendar-valid day, a second at most 59 (leap seconds matched by
the regex are rejected by the constructor) and a year of at least 1. -/
def strptimeReolink (cs : List Char) : Option PyDateTime :=
  match matchDirs reolinkFormatDirs cs with
  | none => none
  | some (groups, rest) =>
    match groups, rest with
    | [ys, ms, dys, hs, mins, secs], [] =>
      let y := natOfDigits ys
      let mo := natOfDigits ms
      let dy := natOfDigits dys
      let h := natOfDigits hs
      let mi := natOfDigits mins
      let s := natOfDigits secs
      if 1 ≤ y ∧ dy ≤ daysInMonth y mo ∧ s ≤ 59 then
        some ⟨y, mo, dy, h, mi, s⟩
      else none
    | _, _ => none

/-! ## `ReolinkVideo.split_reolink_filename` -/

/-- Split a character list at its first occurrence of an underscore,
returning the parts before and after it (`none` if there is none). -/
def breakAtFirstUnderscore : List Char → Option (List Char × List Char)
  | [] => none
  | c :: cs =>
    if c = '_' then some ([], cs)
    else
      match breakAtFirstUnderscore cs with
      | some (p, q) => some (c :: p, q)
      | none => none

/-- Python `filename.rsplit("_", 2)`: split from the right on at most two
underscores, yielding one, two or three parts. -/
def rsplitUnderscore2 (s : String) : List String :=
  match breakAtFirstUnderscore s.data.reverse with
  | none => [s]
  | some (revLast, revInit) =>
    match breakAtFirstUnderscore revInit with
    | none => [String.mk revInit.reverse, String.mk revLast.reverse]
    | some (revLast2, revInit2) =>
      [String.mk revInit2.reverse, String.mk revLast2.reverse,
        String.mk revLast.reverse]

/-- The fallback timestamp used by the `except` branch:
`datetime.strptime("20000101010000", "%Y%m%d%H%M%S")`. -/
def REOLINK_SENTINEL : PyDateTime := ⟨2000, 1, 1, 1, 0, 0⟩

/-- `ReolinkVideo.split_reolink_filename`.  `cameraDefault` models the
configuration value `os.environ["CAMERA_1"]`.  The Python `try/except`
becomes the two fallback arms: index error on fewer than three parts, or a
`strptime` failure on the third part. -/
def split_reolink_filename (cameraDefault : String) (filename : String) :
    String × String × PyDateTime :=
  match rsplitUnderscore2 filename with
  | [n, num, ts] =>
    match strptimeReolink ts.data with
    | some t => (n, num, t)
    | none => (cameraDefault, "01", REOLINK_SENTINEL)
  | _ => (cameraDefault, "01", REOLINK_SENTINEL)

/-! ## Friendly names (`friendly_timestamp`, `friendly_filename`) -/

/-- Zero-pad a number to two digits, as `strftime` does for `%m`, `%d`,
`%H`, `%M`, `%S`. -/
def pad2 (n : Nat) : String :=
  if n < 10 then "0" ++ toString n else toString n

/-- Zero-pad a number to four digits, as `strftime` does for `%Y`. -/
def pad4 (n : Nat) : String :=
  if n < 10 then "000" ++ toString n
  else if n < 100 then "00" ++ toString n
  else if n < 1000 then "0" ++ toString n
  else toString n

/-- `ReolinkVideo.friendly_timestamp`: the timestamp rendered with
`FRIENDLY_TIMESTAMP_FORMAT = "%Y-%m-%d %H-%M-%S"`. -/
def friendly_timestamp (t : PyDateTime) : String :=
  pad4 t.year ++ "-" ++ pad2 t.month ++ "-" ++ pad2 t.day ++ " " ++
    pad2 t.hour ++ "-" ++ pad2 t.minute ++ "-" ++ pad2 t.second

/-- `ReolinkVideo.friendly_filename(extension)`: an extension of `none`
models Python's `extension=None` default, which falls back to the clip's own
extension. -/
def friendly_filename (cameraName : String) (t : PyDateTime)
    (selfExtension : String) (extension : Option String) : String :=
  let ext := extension.getD selfExtension
  friendly_timestamp t ++ " (" ++ cameraName ++ ")." ++ ext

/-! ## `VALID_DETECTION_LABELS` -/

/-- Python `s.rsplit(", ")` (no maxsplit): split on every occurrence of the
two-character separator comma-space.  Since `", "` cannot overlap itself,
splitting from the right coincides with this left-to-right scan.  `acc`
holds the current token, reversed. -/
def splitCommaSpace : List Char → List Char → List (List Char)
  | acc, [] => [acc.reverse]
  | acc, ',' :: ' ' :: rest => acc.reverse :: splitCommaSpace [] rest
  | acc, c :: rest => splitCommaSpace (c :: acc) rest

/-- `ReolinkVideo.VALID_DETECTION_LABELS`, as a function of the
`os.environ["VALID_DETECTION_LABELS"]` configuration string:
`env.rsplit(", ")`. -/
def VALID_DETECTION_LABELS (env : String) : List String :=
  (splitCommaSpace [] env.data).map (fun cs => String.mk cs)

/-- `true` when the character list contains no occurrence of the separator
`", "` (no comma immediately followed by a space). -/
def noCommaSpace : List Char → Bool
  | [] => true
  | [_] => true
  | c :: c2 :: rest => !(c == ',' && c2 == ' ') && noCommaSpace (c2 :: rest)

/-- Join a list of tokens with the separator `", "` (the inverse of
`splitCommaSpace` on separator-free tokens). -/
def joinCommaSpace : List (List Char) → List Char
  | [] => []
  | [l] => l
  | l :: ls => l ++ ',' :: ' ' :: joinCommaSpace ls

/-! ## Geometry (`_detection_in_roi`)

The geometry test is delegated entirely to shapely (`box(...).intersects`),
an external dependency whose code is not part of this repository; in the
pipeline it is therefore a parameter, and its contract is modelled from the
spec below for the geometry claim. -/

/-- Modelled from the spec: the region covered by shapely
`box(x_min, y_min, x_max, y_max)` — the closed axis-aligned rectangle with
those corners, as a point set (shapely's `box` is not in `src/`). -/
def shapelyBoxSet (xmin ymin xmax ymax : ℚ) : Set (ℚ × ℚ) :=
  {p | xmin ≤ p.1 ∧ p.1 ≤ xmax ∧ ymin ≤ p.2 ∧ p.2 ≤ ymax}

/-- Modelled from the spec: shapely's `intersects` predicate on two regions —
true iff they share at least one point, boundary points included
(shapely's `intersects` is not in `src/`). -/
def shapelyIntersects (a b : Set (ℚ × ℚ)) : Prop := (a ∩ b).Nonempty

/-- `ReolinkVideo._detection_in_roi`, with shapely modelled from the spec:
build the box from the detection's bounding-box fields and test intersection
with the ROI region. -/
def detection_in_roi_spec (d : Detection) (roi : Set (ℚ × ℚ)) : Prop :=
  shapelyIntersects (shapelyBoxSet d.x_min d.y_min d.x_max d.y_max) roi

/-! ## Detection classifier (`_is_accepted_detection`) -/

/-- `ReolinkVideo._detection_in_roi` with the external shapely test left
abstract: `intersects` receives the four bounding-box fields, in the order
the code passes them to `box(...)`, and the ROI. -/
def detection_in_roi {ρ : Type} (intersects : ℚ → ℚ → ℚ → ℚ → ρ → Bool)
    (d : Detection) (roi : ρ) : Bool :=
  intersects d.x_min d.y_min d.x_max d.y_max roi

/-- `ReolinkVideo._is_accepted_detection`: reject when the label is not in
`validLabels`; otherwise accept when no ROI is supplied, and defer to the
geometry test when one is. -/
def is_accepted_detection {ρ : Type} (validLabels : List String)
    (intersects : ℚ → ℚ → ℚ → ℚ → ρ → Bool) (d : Detection)
    (roi : Option ρ) : Bool :=
  if ¬ (validLabels.contains d.label) then false
  else
    match roi with
    | none => true
    | some r => detection_in_roi intersects d r

/-! ## The scan loop (`is_accepted`)

The video stream is modelled as the list of frames `cv2.VideoCapture`
delivers; `video.read()` returns the next frame, or fails once the list is
exhausted (an unreadable stream delivers the empty list — the first read
already fails, exactly as for an empty video).  `frameToBytes` models
`self._frame_to_bytes` (cv2 JPEG encoding, which can raise) and
`detectObject` models `deepstack.detectObject` (the external capability,
which can raise).  Besides the Python function's return value (or the
exception it propagates), the result records how often `video.release()` was
called, how many frames were read, on which frame indices the detection
capability was invoked, and which detection triggered acceptance. -/

/-- Observable result of one `is_accepted` call. -/
structure ScanResult (Frame : Type) (ε : Type) where
  outcome : Except ε (Bool × Option Frame × Option DetectionResponse)
  releases : Nat
  framesRead : Nat
  detectCalls : List Nat
  acceptedDetection : Option Detection
deriving Repr

section Scan

variable {Frame Bytes ρ ε : Type}
variable (frameToBytes : Frame → Except ε Bytes)
variable (detectObject : Bytes → ℚ → Except ε DetectionResponse)
variable (validLabels : List String)
variable (intersects : ℚ → ℚ → ℚ → ℚ → ρ → Bool)
variable (minConfidence : ℚ)
variable (roi : Option ρ)

/-- The `while read_ok` loop of `ReolinkVideo.is_accepted`, entered with the
frame just read, the frames still in the stream, the current frame index and
the target frame index.  Mirrors the source: on a target frame the frame is
encoded and sent to the detection capability (either step may raise, in
which case the exception propagates with no release); the first accepted
detection ends the scan with `(True, frame, response)` after one release;
otherwise the target advances by 15 and the next frame is read; stream
exhaustion ends the scan with `(False, None, None)` after one release. -/
def scanLoop : Frame → List Frame → Nat → Nat → ScanResult Frame ε :=
  fun frame rest current target =>
    if current = target then
      match frameToBytes frame with
      | Except.error e =>
        { outcome := Except.error e, releases := 0, framesRead := 0,
          detectCalls := [], acceptedDetection := none }
      | Except.ok bs =>
        match detectObject bs minConfidence with
        | Except.error e =>
          { outcome := Except.error e, releases := 0, framesRead := 0,
            detectCalls := [current], acceptedDetection := none }
        | Except.ok response =>
          match response.detections.find?
              (fun d => is_accepted_detection validLabels intersects d roi) with
          | some d =>
            { outcome := Except.ok (true, some frame, some response),
              releases := 1, framesRead := 0, detectCalls := [current],
              acceptedDetection := some d }
          | none =>
            match rest with
            | [] =>
              { outcome := Except.ok (false, none, none), releases := 1,
                framesRead := 0, detectCalls := [current],
                acceptedDetection := none }
            | f :: fs =>
              let r := scanLoop f fs (current + 1) (target + 15)
              { outcome := r.outcome, releases := r.releases,
                framesRead := r.framesRead + 1,
                detectCalls := current :: r.detectCalls,
                acceptedDetection := r.acceptedDetection }
    else
      match rest with
      | [] =>
        { outcome := Except.ok (false, none, none), releases := 1,
          framesRead := 0, detectCalls := [], acceptedDetection := none }
      | f :: fs =>
        let r := scanLoop f fs (current + 1) target
        { outcome := r.outcome, releases := r.releases,
          framesRead := r.framesRead + 1, detectCalls := r.detectCalls,
          acceptedDetection := r.acceptedDetection }

/-- `ReolinkVideo.is_accepted`: read the first frame (index 1, with
`current_frame = target_frame = 1`); if that read fails the loop never runs
and the scan reports rejection after releasing the stream; otherwise the
loop takes over. -/
def is_accepted (frames : List Frame) : ScanResult Frame ε :=
  match frames with
  | [] =>
    { outcome := Except.ok (false, none, none), releases := 1,
      framesRead := 0, detectCalls := [], acceptedDetection := none }
  | f :: fs =>
    let r := scanLoop frameToBytes detectObject validLabels intersects
      minConfidence roi f fs 1 1
    { outcome := r.outcome, releases := r.releases,
      framesRead := r.framesRead + 1, detectCalls := r.detectCalls,
      acceptedDetection := r.acceptedDetection }

/-- Encoding followed by detection, the analysis a target frame undergoes. -/
def analyzeFrame (f : Frame) : Except ε DetectionResponse :=
  (frameToBytes f).bind (fun bs => detectObject bs minConfidence)

/-- From the claims: the test applied to one indexed frame of the stream —
an analyzed index is one congruent to 1 modulo 15, and such a frame is
accepting when its analysis succeeds and yields a detection accepted by the
classifier, in which case the index, frame and full response are produced. -/
def acceptProbe (p : Nat × Frame) : Option (Nat × Frame × DetectionResponse) :=
  if p.1 % 15 == 1 then
    match analyzeFrame frameToBytes detectObject minConfidence p.2 with
    | Except.ok resp =>
      if (resp.detections.find?
          (fun d => is_accepted_detection validLabels intersects d roi)).isSome
      then some (p.1, p.2, resp) else none
    | Except.error _ => none
  else none

/-- From the claims: the earliest frame, among those at indices
1, 16, 31, … of the stream, whose analysis yields a detection accepted by
the classifier — together with that index and the frame's full response.
Stated independently of the loop, as the specification of its outcome. -/
def firstAcceptedSpec (frames : List Frame) :
    Option (Nat × Frame × DetectionResponse) :=
  (List.enumFrom 1 frames).findSome?
    (acceptProbe frameToBytes detectObject validLabels intersects
      minConfidence roi)

end Scan

/-- Whether an `Except` value is a normal result. -/
def isOkE {ε α : Type} : Except ε α → Bool
  | Except.ok _ => true
  | Except.error _ => false

/-! ## Loop invariants -/

section ScanProofs

variable {Frame Bytes ρ ε : Type}
variable (frameToBytes : Frame → Except ε Bytes)
variable (detectObject : Bytes → ℚ → Except ε DetectionResponse)
variable (validLabels : List String)
variable (intersects : ℚ → ℚ → ℚ → ℚ → ρ → Bool)
variable (minConfidence : ℚ)
variable (roi : Option ρ)

/-- Loop invariant: the stream is released exactly once on a normal exit and
not at all when an exception propagates. -/
theorem scanLoop_releases (rest : List Frame) : ∀ (frame : Frame) (c t : Nat),
    (scanLoop frameToBytes detectObject validLabels intersects minConfidence
        roi frame rest c t).releases =
      if isOkE (scanLoop frameToBytes detectObject validLabels intersects
          minConfidence roi frame rest c t).outcome then 1 else 0 := by
  induction rest with
  | nil =>
    intro frame c t
    by_cases hct : c = t
    · rcases hfb : frameToBytes frame with e | bs
      · simp [scanLoop, hct, hfb, isOkE]
      · rcases hdo : detectObject bs minConfidence with e | resp2
        · simp [scanLoop, hct, hfb, hdo, isOkE]
        · rcases hfd : resp2.detections.find?
              (fun de => is_accepted_detection validLabels intersects de roi)
            with _ | de <;>
          simp [scanLoop, hct, hfb, hdo, hfd, isOkE]
    · simp [scanLoop, hct, isOkE]
  | cons g gs ih =>
    intro frame c t
    by_cases hct : c = t
    · rcases hfb : frameToBytes frame with e | bs
      · simp [scanLoop, hct, hfb, isOkE]
      · rcases hdo : detectObject bs minConfidence with e | resp2
        · simp [scanLoop, hct, hfb, hdo, isOkE]
        · rcases hfd : resp2.detections.find?
              (fun de => is_accepted_detection validLabels intersects de roi)
            with _ | de
          · simp only [scanLoop, hct, if_pos, hfb, hdo, hfd]
            exact ih g (t + 1) (t + 15)
          · simp [scanLoop, hct, hfb, hdo, hfd, isOkE]
    · simp only [scanLoop, if_neg hct]
      exact ih g (c + 1) t

/-- Loop invariant: a normal result is either an acceptance triple (flag
true, frame and response present) or the rejection triple, the latter only
after reading the whole remaining stream. -/
theorem scanLoop_shape (rest : List Frame) : ∀ (frame : Frame) (c t : Nat)
    (b : Bool) (fr : Option Frame) (resp : Option DetectionResponse),
    (scanLoop frameToBytes detectObject validLabels intersects minConfidence
        roi frame rest c t).outcome = Except.ok (b, fr, resp) →
    (b = true ∧ fr.isSome = true ∧ resp.isSome = true) ∨
    (b = false ∧ fr = none ∧ resp = none ∧
      (scanLoop frameToBytes detectObject validLabels intersects
          minConfidence roi frame rest c t).framesRead = rest.length) := by
  induction rest with
  | nil =>
    intro frame c t b fr resp
    by_cases hct : c = t
    · rcases hfb : frameToBytes frame with e | bs
      · simp [scanLoop, hct, hfb]
      · rcases hdo : detectObject bs minConfidence with e | resp2
        · simp [scanLoop, hct, hfb, hdo]
        · rcases hfd : resp2.detections.find?
              (fun de => is_accepted_detection validLabels intersects de roi)
            with _ | de
          · simp [scanLoop, hct, hfb, hdo, hfd]
            rintro rfl rfl rfl
            simp
          · simp [scanLoop, hct, hfb, hdo, hfd]
            rintro rfl rfl rfl
            simp
    · simp [scanLoop, hct]
      rintro rfl rfl rfl
      simp
  | cons g gs ih =>
    intro frame c t b fr resp
    by_cases hct : c = t
    · rcases hfb : frameToBytes frame with e | bs
      · simp [scanLoop, hct, hfb]
      · rcases hdo : detectObject bs minConfidence with e | resp2
        · simp [scanLoop, hct, hfb, hdo]
        · rcases hfd : resp2.detections.find?
              (fun de => is_accepted_detection validLabels intersects de roi)
            with _ | de
          · simp only [scanLoop, hct, if_pos, hfb, hdo, hfd]
            intro h
            rcases ih g (t + 1) (t + 15) b fr resp h with ha | hr
            · exact Or.inl ha
            · exact Or.inr ⟨hr.1, hr.2.1, hr.2.2.1, by
                simp [hr.2.2.2]⟩
          · simp [scanLoop, hct, hfb, hdo, hfd]
            rintro rfl rfl rfl
            simp
    · simp only [scanLoop, if_neg hct]
      intro h
      rcases ih g (c + 1) t b fr resp h with ha | hr
      · exact Or.inl ha
      · exact Or.inr ⟨hr.1, hr.2.1, hr.2.2.1, by simp [hr.2.2.2]⟩

/-- One step of `List.range'`. -/
theorem range'_cons_eq (c n : Nat) :
    List.range' c (n + 1) = c :: List.range' (c + 1) n := rfl

/-- `List.range'` of length zero. -/
theorem range'_zero_eq (c : Nat) : List.range' c 0 = [] := rfl

/-- Loop invariant: when frame encoding always succeeds, the frame indices on
which the detection capability is invoked are exactly the indices congruent
to 1 modulo 15 among the frames processed by the loop (the entry frame at
index `c` plus the `framesRead` frames it goes on to read), provided the
target is such an index within 15 of the current frame. -/
theorem scanLoop_detectCalls
    (hftb : ∀ f : Frame, isOkE (frameToBytes f) = true)
    (rest : List Frame) : ∀ (frame : Frame) (c t : Nat),
    t % 15 = 1 → c ≤ t → t < c + 15 →
    (scanLoop frameToBytes detectObject validLabels intersects minConfidence
        roi frame rest c t).detectCalls =
      (List.range' c ((scanLoop frameToBytes detectObject validLabels
          intersects minConfidence roi frame rest c t).framesRead + 1)).filter
        (fun i => i % 15 == 1) := by
  induction rest with
  | nil =>
    intro frame c t ht hct hlt
    by_cases hc : c = t
    · rcases hfb : frameToBytes frame with e | bs
      · have hok := hftb frame
        rw [hfb] at hok
        simp [isOkE] at hok
      · rcases hdo : detectObject bs minConfidence with e | resp2
        · simp [scanLoop, hc, hfb, hdo, range'_cons_eq, range'_zero_eq,
            List.filter_cons, ht]
        · rcases hfd : resp2.detections.find?
              (fun de => is_accepted_detection validLabels intersects de roi)
            with _ | de <;>
          simp [scanLoop, hc, hfb, hdo, hfd, range'_cons_eq, range'_zero_eq,
            List.filter_cons, ht]
    · have hmod : c % 15 ≠ 1 := by omega
      simp [scanLoop, hc, range'_cons_eq, range'_zero_eq, List.filter_cons,
        hmod]
  | cons g gs ih =>
    intro frame c t ht hct hlt
    by_cases hc : c = t
    · rcases hfb : frameToBytes frame with e | bs
      · have hok := hftb frame
        rw [hfb] at hok
        simp [isOkE] at hok
      · rcases hdo : detectObject bs minConfidence with e | resp2
        · simp [scanLoop, hc, hfb, hdo, range'_cons_eq, range'_zero_eq,
            List.filter_cons, ht]
        · rcases hfd : resp2.detections.find?
              (fun de => is_accepted_detection validLabels intersects de roi)
            with _ | de
          · have hrec := ih g (t + 1) (t + 15) (by omega) (by omega)
              (by omega)
            simp only [scanLoop, hc, if_pos, hfb, hdo, hfd]
            rw [show ∀ m : Nat, m + 1 + 1 = (m + 1) + 1 from fun _ => rfl]
            rw [range'_cons_eq, List.filter_cons]
            simp only [ht, Nat.reduceBEq, beq_self_eq_true, if_pos]
            rw [hrec]
          · simp [scanLoop, hc, hfb, hdo, hfd, range'_cons_eq,
              range'_zero_eq, List.filter_cons, ht]
    · have hmod : c % 15 ≠ 1 := by omega
      have hrec := ih g (c + 1) t ht (by omega) (by omega)
      simp only [scanLoop, if_neg hc]
      rw [range'_cons_eq, List.filter_cons]
      have hdrop : (c % 15 == 1) = false := by
        simp [hmod]
      rw [hdrop]
      simp only [Bool.false_eq_true, if_neg, not_false_iff]
      exact hrec

/-- `List.findSome?` on an empty list. -/
theorem findSome?_nil {α β : Type} (f : α → Option β) :
    ([] : List α).findSome? f = none := rfl

/-- `List.findSome?` head step, failing head. -/
theorem findSome?_cons_none {α β : Type} (f : α → Option β) (a : α)
    (l : List α) (h : f a = none) :
    (a :: l).findSome? f = l.findSome? f := by
  simp only [List.findSome?]
  rw [h]

/-- `List.findSome?` head step, succeeding head. -/
theorem findSome?_cons_some {α β : Type} (f : α → Option β) (a : α)
    (l : List α) (b : β) (h : f a = some b) :
    (a :: l).findSome? f = some b := by
  simp only [List.findSome?]
  rw [h]

/-- Main loop characterization: under the loop invariant on `c` and `t`, and
when every frame of the remaining stream can be analyzed without an
exception, the loop returns exactly what the first accepting analyzed frame
(if any) prescribes: the acceptance triple with that frame's index, frame
and full response, having read exactly up to that frame — or the rejection
triple after reading the whole stream when no analyzed frame accepts. -/
theorem scanLoop_spec (rest : List Frame) : ∀ (frame : Frame) (c t : Nat),
    t % 15 = 1 → c ≤ t → t < c + 15 →
    (∀ x ∈ frame :: rest,
      isOkE (analyzeFrame frameToBytes detectObject minConfidence x) = true) →
    match (List.enumFrom c (frame :: rest)).findSome?
        (acceptProbe frameToBytes detectObject validLabels intersects
          minConfidence roi) with
    | some (i, f0, resp) =>
        c ≤ i ∧
        (scanLoop frameToBytes detectObject validLabels intersects
            minConfidence roi frame rest c t).outcome =
          Except.ok (true, some f0, some resp) ∧
        (scanLoop frameToBytes detectObject validLabels intersects
            minConfidence roi frame rest c t).framesRead = i - c ∧
        (scanLoop frameToBytes detectObject validLabels intersects
            minConfidence roi frame rest c t).acceptedDetection =
          resp.detections.find?
            (fun d => is_accepted_detection validLabels intersects d roi)
    | none =>
        (scanLoop frameToBytes detectObject validLabels intersects
            minConfidence roi frame rest c t).outcome =
          Except.ok (false, none, none) ∧
        (scanLoop frameToBytes detectObject validLabels intersects
            minConfidence roi frame rest c t).framesRead = rest.length := by
  induction rest with
  | nil =>
    intro frame c t ht hct hlt htot
    have hfr := htot frame (by simp)
    by_cases hc : c = t
    · rcases hfb : frameToBytes frame with e | bs
      · rw [analyzeFrame, hfb] at hfr
        simp [Except.bind, isOkE] at hfr
      · rcases hdo : detectObject bs minConfidence with e | resp2
        · rw [analyzeFrame, hfb] at hfr
          simp [Except.bind, hdo, isOkE] at hfr
        · have hana : analyzeFrame frameToBytes detectObject minConfidence
              frame = Except.ok resp2 := by
            rw [analyzeFrame, hfb]
            simp [Except.bind, hdo]
          rcases hfd : resp2.detections.find?
              (fun de => is_accepted_detection validLabels intersects de roi)
            with _ | de
          · have hprobe : acceptProbe frameToBytes detectObject validLabels
                intersects minConfidence roi (c, frame) = none := by
              simp [acceptProbe, hana, hfd, hc, ht]
            rw [show List.enumFrom c [frame] = [(c, frame)] from rfl,
              findSome?_cons_none _ _ _ hprobe, findSome?_nil]
            simp [scanLoop, hc, hfb, hdo, hfd]
          · have hprobe : acceptProbe frameToBytes detectObject validLabels
                intersects minConfidence roi (c, frame) =
                some (c, frame, resp2) := by
              simp [acceptProbe, hana, hfd, hc, ht]
            rw [show List.enumFrom c [frame] = [(c, frame)] from rfl,
              findSome?_cons_some _ _ _ _ hprobe]
            simp [scanLoop, hc, hfb, hdo, hfd]
    · have hmod : c % 15 ≠ 1 := by omega
      have hprobe : acceptProbe frameToBytes detectObject validLabels
          intersects minConfidence roi (c, frame) = none := by
        simp [acceptProbe, hmod]
      rw [show List.enumFrom c [frame] = [(c, frame)] from rfl,
        findSome?_cons_none _ _ _ hprobe, findSome?_nil]
      simp [scanLoop, hc]
  | cons g gs ih =>
    intro frame c t ht hct hlt htot
    have hfr := htot frame (by simp)
    have htot2 : ∀ x ∈ g :: gs,
        isOkE (analyzeFrame frameToBytes detectObject minConfidence x)
          = true := by
      intro x hx
      exact htot x (by simp [hx])
    by_cases hc : c = t
    · rcases hfb : frameToBytes frame with e | bs
      · rw [analyzeFrame, hfb] at hfr
        simp [Except.bind, isOkE] at hfr
      · rcases hdo : detectObject bs minConfidence with e | resp2
        · rw [analyzeFrame, hfb] at hfr
          simp [Except.bind, hdo, isOkE] at hfr
        · have hana : analyzeFrame frameToBytes detectObject minConfidence
              frame = Except.ok resp2 := by
            rw [analyzeFrame, hfb]
            simp [Except.bind, hdo]
          rcases hfd : resp2.detections.find?
              (fun de => is_accepted_detection validLabels intersects de roi)
            with _ | de
          · have hprobe : acceptProbe frameToBytes detectObject validLabels
                intersects minConfidence roi (c, frame) = none := by
              simp [acceptProbe, hana, hfd, hc, ht]
            have hrec := ih g (c + 1) (t + 15) (by omega) (by omega)
              (by omega) htot2
            rw [show List.enumFrom c (frame :: g :: gs) =
              (c, frame) :: List.enumFrom (c + 1) (g :: gs) from rfl,
              findSome?_cons_none _ _ _ hprobe]
            simp only [scanLoop]
            rw [if_pos hc]
            simp only [hfb, hdo, hfd]
            rcases hfs : (List.enumFrom (c + 1) (g :: gs)).findSome?
                (acceptProbe frameToBytes detectObject validLabels intersects
                  minConfidence roi) with _ | p
            · rw [hfs] at hrec
              exact ⟨hrec.1, by simp [hrec.2]⟩
            · rcases p with ⟨i, f0, resp⟩
              rw [hfs] at hrec
              have hi : c + 1 ≤ i := hrec.1
              have h3 := hrec.2.2.1
              refine ⟨by omega, hrec.2.1, ?_, hrec.2.2.2⟩
              show (scanLoop frameToBytes detectObject validLabels intersects
                minConfidence roi g gs (c + 1) (t + 15)).framesRead + 1 = i - c
              omega
          · have hprobe : acceptProbe frameToBytes detectObject validLabels
                intersects minConfidence roi (c, frame) =
                some (c, frame, resp2) := by
              simp [acceptProbe, hana, hfd, hc, ht]
            rw [show List.enumFrom c (frame :: g :: gs) =
              (c, frame) :: List.enumFrom (c + 1) (g :: gs) from rfl,
              findSome?_cons_some _ _ _ _ hprobe]
            simp [scanLoop, hc, hfb, hdo, hfd]
    · have hmod : c % 15 ≠ 1 := by omega
      have hprobe : acceptProbe frameToBytes detectObject validLabels
          intersects minConfidence roi (c, frame) = none := by
        simp [acceptProbe, hmod]
      have hrec := ih g (c + 1) t ht (by omega) (by omega) htot2
      rw [show List.enumFrom c (frame :: g :: gs) =
        (c, frame) :: List.enumFrom (c + 1) (g :: gs) from rfl,
        findSome?_cons_none _ _ _ hprobe]
      simp only [scanLoop]
      rw [if_neg hc]
      rcases hfs : (List.enumFrom (c + 1) (g :: gs)).findSome?
          (acceptProbe frameToBytes detectObject validLabels intersects
            minConfidence roi) with _ | p
      · rw [hfs] at hrec
        exact ⟨hrec.1, by simp [hrec.2]⟩
      · rcases p with ⟨i, f0, resp⟩
        rw [hfs] at hrec
        have hi : c + 1 ≤ i := hrec.1
        have h3 := hrec.2.2.1
        refine ⟨by omega, hrec.2.1, ?_, hrec.2.2.2⟩
        show (scanLoop frameToBytes detectObject validLabels intersects
          minConfidence roi g gs (c + 1) t).framesRead + 1 = i - c
        omega

end ScanProofs

/-! ## Splitting on the comma-space separator -/

/-- The third arm of `splitCommaSpace`: any head that does not start the
separator is moved onto the accumulator. -/
theorem splitCommaSpace_other (acc : List Char) (c : Char) (rest : List Char)
    (h : ¬ (c = ',' ∧ rest.head? = some ' ')) :
    splitCommaSpace acc (c :: rest) = splitCommaSpace (c :: acc) rest := by
  rw [splitCommaSpace.eq_def]
  split
  · simp_all
  · simp_all
  · rename_i heq
    injection heq with h1 h2
    subst h1
    subst h2
    rfl

/-- A list without the separator stays without it after dropping the head. -/
theorem noCommaSpace_tail (c : Char) (rest : List Char)
    (h : noCommaSpace (c :: rest) = true) : noCommaSpace rest = true := by
  rcases rest with _ | ⟨c2, r⟩
  · rfl
  · rw [noCommaSpace] at h
    simp only [Bool.and_eq_true] at h
    exact h.2

/-- `splitCommaSpace` on a separator-free list yields one token: the
accumulator followed by the list. -/
theorem splitCommaSpace_noPair : ∀ (l acc : List Char),
    noCommaSpace l = true → splitCommaSpace acc l = [acc.reverse ++ l] := by
  intro l
  induction l with
  | nil =>
    intro acc h
    simp [splitCommaSpace]
  | cons c l2 ih =>
    intro acc h
    have hstep : splitCommaSpace acc (c :: l2) =
        splitCommaSpace (c :: acc) l2 := by
      apply splitCommaSpace_other
      rintro ⟨hc, hh⟩
      rcases l2 with _ | ⟨c2, l3⟩
      · simp at hh
      · simp at hh
        rw [noCommaSpace] at h
        simp [hc, hh] at h
    rw [hstep, ih (c :: acc) (noCommaSpace_tail c l2 h)]
    simp

/-- `splitCommaSpace` walks over a separator-free prefix, splits at the first
separator, and continues on the remainder. -/
theorem splitCommaSpace_append (rest : List Char) : ∀ (l acc : List Char),
    noCommaSpace l = true →
    splitCommaSpace acc (l ++ ',' :: ' ' :: rest) =
      (acc.reverse ++ l) :: splitCommaSpace [] rest := by
  intro l
  induction l with
  | nil =>
    intro acc h
    simp [splitCommaSpace]
  | cons c l2 ih =>
    intro acc h
    have hstep : splitCommaSpace acc ((c :: l2) ++ ',' :: ' ' :: rest) =
        splitCommaSpace (c :: acc) (l2 ++ ',' :: ' ' :: rest) := by
      apply splitCommaSpace_other
      rintro ⟨hc, hh⟩
      rcases l2 with _ | ⟨c2, l3⟩
      · simp at hh
      · simp at hh
        rw [noCommaSpace] at h
        simp [hc, hh] at h
    rw [hstep, ih (c :: acc) (noCommaSpace_tail c l2 h)]
    simp

/-- Splitting is a left inverse of joining with `", "` for a nonempty list
of separator-free tokens. -/
theorem splitCommaSpace_joinCommaSpace : ∀ (labels : List (List Char)),
    labels ≠ [] → (∀ l ∈ labels, noCommaSpace l = true) →
    splitCommaSpace [] (joinCommaSpace labels) = labels := by
  intro labels
  induction labels with
  | nil => intro h _; exact absurd rfl h
  | cons l ls ih =>
    intro _ hall
    rcases ls with _ | ⟨l2, ls2⟩
    · rw [show joinCommaSpace [l] = l from rfl]
      rw [splitCommaSpace_noPair l [] (hall l (by simp))]
      simp
    · rw [show joinCommaSpace (l :: l2 :: ls2) =
        l ++ ',' :: ' ' :: joinCommaSpace (l2 :: ls2) from rfl]
      rw [splitCommaSpace_append _ l [] (hall l (by simp))]
      rw [ih (by simp) (fun x hx => hall x (by simp [hx]))]
      simp

/-- Sanity check for the fallback constant: the `except` branch of the code
computes `datetime.strptime("20000101010000", "%Y%m%d%H%M%S")`, which is
exactly `REOLINK_SENTINEL`. -/
theorem strptimeReolink_sentinel :
    strptimeReolink "20000101010000".data = some REOLINK_SENTINEL := by
  decide

/-! ## Claims about the scan loop -/

section ClaimTheorems

variable {Frame Bytes ρ ε : Type}
variable (frameToBytes : Frame → Except ε Bytes)
variable (detectObject : Bytes → ℚ → Except ε DetectionResponse)
variable (validLabels : List String)
variable (intersects : ℚ → ℚ → ℚ → ℚ → ρ → Bool)
variable (minConfidence : ℚ)
variable (roi : Option ρ)

/-- Claim C1 counterexample: a detection capability that raises on the first
analyzed frame makes the scan propagate the exception with zero calls to
`release`, refuting release-on-every-exit-path as the claim states it. -/
theorem C1_counterexample :
    (is_accepted (fun n : Nat => (Except.ok n : Except Unit Nat))
        (fun _ _ => Except.error ()) [] (fun _ _ _ _ (_ : Unit) => true)
        0 none [0]).outcome = Except.error () ∧
    (is_accepted (fun n : Nat => (Except.ok n : Except Unit Nat))
        (fun _ _ => Except.error ()) [] (fun _ _ _ _ (_ : Unit) => true)
        0 none [0]).releases = 0 :=
  ⟨rfl, rfl⟩

/-- Claim C1 (amended): on every normal return of the scan — acceptance,
rejection by stream exhaustion, and the unreadable-first-frame path — the
stream handle is released exactly once before the call returns; when the
detection capability or frame encoding raises, the exception propagates
without the handle being released. -/
theorem C1_release_discipline (frames : List Frame) :
    (is_accepted frameToBytes detectObject validLabels intersects
        minConfidence roi frames).releases =
      if isOkE (is_accepted frameToBytes detectObject validLabels intersects
          minConfidence roi frames).outcome then 1 else 0 := by
  cases frames with
  | nil => rfl
  | cons f fs =>
    exact scanLoop_releases frameToBytes detectObject validLabels intersects
      minConfidence roi fs f 1 1

/-- Claim C1 witness: the release count of a concrete failing scan, computed
through the amended theorem. -/
theorem C1_witness :
    (is_accepted (fun n : Nat => (Except.ok n : Except Unit Nat)) (fun _ _ => Except.error ())
        [] (fun _ _ _ _ (_ : Unit) => true) 0 none [0, 1]).releases =
      if isOkE (is_accepted (fun n : Nat => (Except.ok n : Except Unit Nat))
          (fun _ _ => Except.error ()) [] (fun _ _ _ _ (_ : Unit) => true)
          0 none [0, 1]).outcome then 1 else 0 :=
  C1_release_discipline (fun n : Nat => (Except.ok n : Except Unit Nat))
    (fun _ _ => Except.error ()) [] (fun _ _ _ _ (_ : Unit) => true)
    0 none [0, 1]

/-- Claim C3: when frame encoding succeeds on every frame, the indices on
which the scan invokes the detection capability are exactly those congruent
to 1 modulo 15 among the frames read (1, 16, 31, 46, …: the first analyzed
frame is index 1 and each target advances by 15) up to the point the scan
stops, and a scan that reports rejection has read the whole stream. -/
theorem C3_stride_exact
    (hftb : ∀ f : Frame, isOkE (frameToBytes f) = true)
    (frames : List Frame) :
    (is_accepted frameToBytes detectObject validLabels intersects
        minConfidence roi frames).detectCalls =
      (List.range' 1 ((is_accepted frameToBytes detectObject validLabels
          intersects minConfidence roi frames).framesRead)).filter
        (fun i => i % 15 == 1) ∧
    ((is_accepted frameToBytes detectObject validLabels intersects
        minConfidence roi frames).outcome = Except.ok (false, none, none) →
      (is_accepted frameToBytes detectObject validLabels intersects
          minConfidence roi frames).framesRead = frames.length) := by
  cases frames with
  | nil => exact ⟨rfl, fun _ => rfl⟩
  | cons f fs =>
    constructor
    · exact scanLoop_detectCalls frameToBytes detectObject validLabels
        intersects minConfidence roi hftb fs f 1 1 rfl (le_refl 1) (by omega)
    · intro hout
      rcases scanLoop_shape frameToBytes detectObject validLabels intersects
          minConfidence roi fs f 1 1 false none none hout with hacc | hrej
      · exact absurd hacc.1 (by simp)
      · show (scanLoop frameToBytes detectObject validLabels intersects
          minConfidence roi f fs 1 1).framesRead + 1 = (f :: fs).length
        rw [hrej.2.2.2]
        rfl

/-- Claim C3 witness: a 17-frame stream with an always-empty detection
response is analyzed exactly at indices 1 and 16, via the theorem. -/
theorem C3_witness :
    (is_accepted (fun n : Nat => (Except.ok n : Except Unit Nat))
        (fun _ _ => Except.ok (⟨[]⟩ : DetectionResponse)) []
        (fun _ _ _ _ (_ : Unit) => true) 0 none
        (List.replicate 17 0)).detectCalls =
      (List.range' 1 ((is_accepted (fun n : Nat => (Except.ok n : Except Unit Nat))
          (fun _ _ => Except.ok (⟨[]⟩ : DetectionResponse)) []
          (fun _ _ _ _ (_ : Unit) => true) 0 none
          (List.replicate 17 0)).framesRead)).filter
        (fun i => i % 15 == 1) ∧
    ((is_accepted (fun n : Nat => (Except.ok n : Except Unit Nat))
        (fun _ _ => Except.ok (⟨[]⟩ : DetectionResponse)) []
        (fun _ _ _ _ (_ : Unit) => true) 0 none
        (List.replicate 17 0)).outcome = Except.ok (false, none, none) →
      (is_accepted (fun n : Nat => (Except.ok n : Except Unit Nat))
          (fun _ _ => Except.ok (⟨[]⟩ : DetectionResponse)) []
          (fun _ _ _ _ (_ : Unit) => true) 0 none
          (List.replicate 17 0)).framesRead = (List.replicate 17 0).length) :=
  C3_stride_exact (fun n : Nat => (Except.ok n : Except Unit Nat))
    (fun _ _ => Except.ok (⟨[]⟩ : DetectionResponse)) []
    (fun _ _ _ _ (_ : Unit) => true) 0 none (fun _ => rfl)
    (List.replicate 17 0)

/-- Claim C4: when every frame analyzes without an exception and some
analyzed frame yields an accepted detection, the scan returns the acceptance
flag together with the earliest such frame and its full response (other
detections of that response included), reads no frame beyond it, and the
detection that triggered acceptance is the first accepted one in response
order. -/
theorem C4_earliest_acceptance (frames : List Frame)
    (htot : ∀ x ∈ frames, isOkE (analyzeFrame frameToBytes detectObject
      minConfidence x) = true)
    (i : Nat) (f : Frame) (resp : DetectionResponse)
    (hspec : firstAcceptedSpec frameToBytes detectObject validLabels
      intersects minConfidence roi frames = some (i, f, resp)) :
    (is_accepted frameToBytes detectObject validLabels intersects
        minConfidence roi frames).outcome =
      Except.ok (true, some f, some resp) ∧
    (is_accepted frameToBytes detectObject validLabels intersects
        minConfidence roi frames).framesRead = i ∧
    (is_accepted frameToBytes detectObject validLabels intersects
        minConfidence roi frames).acceptedDetection =
      resp.detections.find?
        (fun d => is_accepted_detection validLabels intersects d roi) := by
  cases frames with
  | nil =>
    rw [show firstAcceptedSpec frameToBytes detectObject validLabels
      intersects minConfidence roi ([] : List Frame) = none from rfl]
      at hspec
    exact absurd hspec (by simp)
  | cons g gs =>
    have h := scanLoop_spec frameToBytes detectObject validLabels intersects
      minConfidence roi gs g 1 1 rfl (le_refl 1) (by omega) htot
    simp only [firstAcceptedSpec] at hspec
    rw [hspec] at h
    refine ⟨h.2.1, ?_, h.2.2.2⟩
    have h1 := h.1
    have h2 := h.2.2.1
    show (scanLoop frameToBytes detectObject validLabels intersects
      minConfidence roi g gs 1 1).framesRead + 1 = i
    omega

/-- Claim C4 witness: on a 40-frame stream whose deterministic detection
yields a "person" detection exactly at frame 16, the theorem produces the
acceptance triple for frame 16 after reading 16 frames. -/
theorem C4_witness :
    (is_accepted (fun n : Nat => (Except.ok n : Except Unit Nat))
        (fun b _ => if b = 16 then Except.ok
            (⟨[⟨"person", 1, 0, 0, 1, 1⟩]⟩ : DetectionResponse)
          else Except.ok (⟨[]⟩ : DetectionResponse))
        ["person"] (fun _ _ _ _ (_ : Unit) => true) 0 none
        (List.range' 1 40)).outcome =
      Except.ok (true, some 16,
        some (⟨[⟨"person", 1, 0, 0, 1, 1⟩]⟩ : DetectionResponse)) ∧
    (is_accepted (fun n : Nat => (Except.ok n : Except Unit Nat))
        (fun b _ => if b = 16 then Except.ok
            (⟨[⟨"person", 1, 0, 0, 1, 1⟩]⟩ : DetectionResponse)
          else Except.ok (⟨[]⟩ : DetectionResponse))
        ["person"] (fun _ _ _ _ (_ : Unit) => true) 0 none
        (List.range' 1 40)).framesRead = 16 ∧
    (is_accepted (fun n : Nat => (Except.ok n : Except Unit Nat))
        (fun b _ => if b = 16 then Except.ok
            (⟨[⟨"person", 1, 0, 0, 1, 1⟩]⟩ : DetectionResponse)
          else Except.ok (⟨[]⟩ : DetectionResponse))
        ["person"] (fun _ _ _ _ (_ : Unit) => true) 0 none
        (List.range' 1 40)).acceptedDetection =
      (⟨[⟨"person", 1, 0, 0, 1, 1⟩]⟩ : DetectionResponse).detections.find?
        (fun d => is_accepted_detection ["person"]
          (fun _ _ _ _ (_ : Unit) => true) d none) :=
  C4_earliest_acceptance (fun n : Nat => (Except.ok n : Except Unit Nat))
    (fun b _ => if b = 16 then Except.ok
        (⟨[⟨"person", 1, 0, 0, 1, 1⟩]⟩ : DetectionResponse)
      else Except.ok (⟨[]⟩ : DetectionResponse))
    ["person"] (fun _ _ _ _ (_ : Unit) => true) 0 none
    (List.range' 1 40) (by decide) 16 16
    (⟨[⟨"person", 1, 0, 0, 1, 1⟩]⟩ : DetectionResponse) (by decide)

/-- Claim C6: a scan whose first frame cannot be read returns
`(false, none, none)` without raising (the condition is only logged), and a
scan in which no analyzed frame yields an accepted detection before the
stream is exhausted also returns `(false, none, none)` without raising. -/
theorem C6_rejection_paths (frames : List Frame) :
    (is_accepted frameToBytes detectObject validLabels intersects
        minConfidence roi ([] : List Frame)).outcome =
      Except.ok (false, none, none) ∧
    ((∀ x ∈ frames, isOkE (analyzeFrame frameToBytes detectObject
        minConfidence x) = true) →
      firstAcceptedSpec frameToBytes detectObject validLabels intersects
        minConfidence roi frames = none →
      (is_accepted frameToBytes detectObject validLabels intersects
          minConfidence roi frames).outcome =
        Except.ok (false, none, none)) := by
  refine ⟨rfl, ?_⟩
  intro htot hspec
  cases frames with
  | nil => rfl
  | cons g gs =>
    have h := scanLoop_spec frameToBytes detectObject validLabels intersects
      minConfidence roi gs g 1 1 rfl (le_refl 1) (by omega) htot
    simp only [firstAcceptedSpec] at hspec
    rw [hspec] at h
    exact h.1

/-- Claim C6 witness: a concrete three-frame stream with an always-empty
detection response is rejected, via the theorem. -/
theorem C6_witness :
    (is_accepted (fun n : Nat => (Except.ok n : Except Unit Nat))
        (fun _ _ => Except.ok (⟨[]⟩ : DetectionResponse)) []
        (fun _ _ _ _ (_ : Unit) => true) 0 none [7, 8, 9]).outcome =
      Except.ok (false, none, none) :=
  (C6_rejection_paths (fun n : Nat => (Except.ok n : Except Unit Nat))
    (fun _ _ => Except.ok (⟨[]⟩ : DetectionResponse)) []
    (fun _ _ _ _ (_ : Unit) => true) 0 none [7, 8, 9]).2
    (by decide) (by decide)

/-- Claim C10: any normally returned scan triple is well-formed: a true
acceptance flag comes with a present frame and a present response, and a
false flag comes with neither. -/
theorem C10_result_shape (frames : List Frame) (b : Bool)
    (fr : Option Frame) (resp : Option DetectionResponse)
    (h : (is_accepted frameToBytes detectObject validLabels intersects
      minConfidence roi frames).outcome = Except.ok (b, fr, resp)) :
    (b = true → fr.isSome = true ∧ resp.isSome = true) ∧
    (b = false → fr = none ∧ resp = none) := by
  cases frames with
  | nil =>
    rw [show (is_accepted frameToBytes detectObject validLabels intersects
      minConfidence roi ([] : List Frame)).outcome =
      Except.ok (false, none, none) from rfl] at h
    simp only [Except.ok.injEq, Prod.mk.injEq] at h
    refine ⟨fun hb => ?_, fun _ => ⟨h.2.1.symm, h.2.2.symm⟩⟩
    rw [hb] at h
    exact absurd h.1 (by simp)
  | cons g gs =>
    rcases scanLoop_shape frameToBytes detectObject validLabels intersects
        minConfidence roi gs g 1 1 b fr resp h with hacc | hrej
    · refine ⟨fun _ => ⟨hacc.2.1, hacc.2.2⟩, fun hf => ?_⟩
      rw [hacc.1] at hf
      exact absurd hf (by simp)
    · refine ⟨fun ht => ?_, fun _ => ⟨hrej.2.1, hrej.2.2.1⟩⟩
      rw [hrej.1] at ht
      exact absurd ht (by simp)

/-- Claim C10 witness: the shape invariant evaluated on a concrete accepting
scan, via the theorem. -/
theorem C10_witness :
    (true = true →
      (some (7 : Nat)).isSome = true ∧
      (some (⟨[⟨"person", 1, 0, 0, 1, 1⟩]⟩ : DetectionResponse)).isSome
        = true) ∧
    (true = false →
      (some (7 : Nat)) = none ∧
      (some (⟨[⟨"person", 1, 0, 0, 1, 1⟩]⟩ : DetectionResponse)) = none) :=
  C10_result_shape (fun n : Nat => (Except.ok n : Except Unit Nat))
    (fun _ _ => Except.ok
      (⟨[⟨"person", 1, 0, 0, 1, 1⟩]⟩ : DetectionResponse))
    ["person"] (fun _ _ _ _ (_ : Unit) => true) 0 none [7] true
    (some 7) (some (⟨[⟨"person", 1, 0, 0, 1, 1⟩]⟩ : DetectionResponse))
    rfl

end ClaimTheorems

/-! ## Remaining claims -/

/-- Claim C2: the classifier accepts a detection exactly when its label is a
member of the valid-labels list (case-sensitive, exact match) and, when an
ROI is supplied, the geometry test reports intersection of its bounding box
with the ROI; with no ROI only label membership matters, and a label outside
the list is rejected regardless of the ROI. -/
theorem C2_classifier_iff {ρ : Type} (validLabels : List String)
    (intersects : ℚ → ℚ → ℚ → ℚ → ρ → Bool) (d : Detection) :
    (is_accepted_detection validLabels intersects d none = true ↔
      d.label ∈ validLabels) ∧
    (∀ r : ρ,
      is_accepted_detection validLabels intersects d (some r) = true ↔
        (d.label ∈ validLabels ∧ detection_in_roi intersects d r = true)) ∧
    (∀ roi : Option ρ, validLabels.contains d.label = false →
      is_accepted_detection validLabels intersects d roi = false) := by
  have hmem : (validLabels.contains d.label = true) ↔
      d.label ∈ validLabels := by
    simp
  by_cases hm : validLabels.contains d.label = true
  · have hin : d.label ∈ validLabels := hmem.mp hm
    refine ⟨by simp [is_accepted_detection, hm, hin], ?_, ?_⟩
    · intro r
      simp [is_accepted_detection, hm, hin]
    · intro roi hfalse
      rw [hm] at hfalse
      exact absurd hfalse (by simp)
  · have hnin : ¬ d.label ∈ validLabels := fun hin => hm (hmem.mpr hin)
    have hmf : validLabels.contains d.label = false := by
      cases hcb : validLabels.contains d.label
      · rfl
      · exact absurd hcb hm
    refine ⟨by simp [is_accepted_detection, hmf, hnin], ?_, ?_⟩
    · intro r
      simp [is_accepted_detection, hmf, hnin]
    · intro roi _
      rcases roi with _ | r <;> simp [is_accepted_detection, hmf, hnin]

/-- Claim C2 witness: a detection labeled "car" is rejected against the
valid-labels list ["person"] regardless of the (absent) ROI, via the
theorem. -/
theorem C2_witness :
    is_accepted_detection ["person"] (fun _ _ _ _ (_ : Unit) => true)
      ⟨"car", 1, 0, 0, 1, 1⟩ none = false :=
  (C2_classifier_iff ["person"] (fun _ _ _ _ (_ : Unit) => true)
    ⟨"car", 1, 0, 0, 1, 1⟩).2.2 none (by decide)

/-- Claim C5: with shapely modelled from the spec, the geometry test holds
iff the detection's closed box and the ROI region share at least one point;
a box that only touches the ROI boundary intersects, a box fully outside
does not, and a degenerate (zero-width and zero-height) box is still tested
correctly. -/
theorem C5_intersection_shares_point :
    (∀ (d : Detection) (roi : Set (ℚ × ℚ)),
      detection_in_roi_spec d roi ↔
        ∃ p : ℚ × ℚ, p ∈ shapelyBoxSet d.x_min d.y_min d.x_max d.y_max ∧
          p ∈ roi) ∧
    detection_in_roi_spec ⟨"person", 1, 1, 0, 2, 1⟩ (shapelyBoxSet 0 0 1 1) ∧
    ¬ detection_in_roi_spec ⟨"person", 1, 3, 0, 4, 1⟩
      (shapelyBoxSet 0 0 1 1) ∧
    detection_in_roi_spec ⟨"person", 1, 1/2, 1/2, 1/2, 1/2⟩
      (shapelyBoxSet 0 0 1 1) := by
  refine ⟨?_, ?_, ?_, ?_⟩
  · intro d roi
    simp [detection_in_roi_spec, shapelyIntersects, Set.Nonempty,
      Set.mem_inter_iff]
  · refine ⟨(1, 0), ?_⟩
    constructor <;> norm_num [shapelyBoxSet]
  · rintro ⟨⟨x, y⟩, hbox, hroi⟩
    simp only [shapelyBoxSet, Set.mem_setOf_eq] at hbox hroi
    obtain ⟨h1, h2, h3, h4⟩ := hbox
    obtain ⟨g1, g2, g3, g4⟩ := hroi
    linarith
  · refine ⟨(1/2, 1/2), ?_⟩
    constructor <;> norm_num [shapelyBoxSet]

/-- Claim C5 witness: the share-a-point characterization at the concrete
boundary-touching box and the unit-square ROI, via the theorem. -/
theorem C5_witness :
    detection_in_roi_spec ⟨"person", 1, 1, 0, 2, 1⟩ (shapelyBoxSet 0 0 1 1) ↔
      ∃ p : ℚ × ℚ, p ∈ shapelyBoxSet 1 0 2 1 ∧ p ∈ shapelyBoxSet 0 0 1 1 :=
  C5_intersection_shares_point.1 ⟨"person", 1, 1, 0, 2, 1⟩
    (shapelyBoxSet 0 0 1 1)

/-- Claim C7 counterexample: "2021051108272" is 13 characters long, so the
final part of "Cam_01_2021051108272" is not a valid 14-digit YYYYMMDDHHMMSS
timestamp; the claim then demands the fallback, but Python's strptime parses
the 13-digit string (%Y is exactly four digits while %H, %M, %S also accept
single digits), so parsing succeeds with 2021-05-11 08:27:02 instead. -/
theorem C7_counterexample :
    rsplitUnderscore2 "Cam_01_2021051108272" =
      ["Cam", "01", "2021051108272"] ∧
    ("2021051108272".data.length = 14 → False) ∧
    split_reolink_filename "Default" "Cam_01_2021051108272" =
      ("Cam", "01", ⟨2021, 5, 11, 8, 27, 2⟩) ∧
    split_reolink_filename "Default" "Cam_01_2021051108272" ≠
      ("Default", "01", REOLINK_SENTINEL) := by
  refine ⟨by decide, by decide, by decide, by decide⟩

/-- Claim C7 (amended): every filename that fails to parse — fewer than
three parts after splitting from the right on underscores, or a final part
rejected by strptime with format %Y%m%d%H%M%S (note that strptime also
accepts some digit strings shorter than 14 characters, which therefore do
not fall back) — yields the configured default camera name, camera number
"01" and the fixed sentinel timestamp 2000-01-01 01:00:00, without raising;
in particular "garbage.mp4" does. -/
theorem C7_parse_fallback (cameraDefault : String) :
    split_reolink_filename cameraDefault "garbage.mp4" =
      (cameraDefault, "01", REOLINK_SENTINEL) ∧
    (∀ filename : String,
      ((rsplitUnderscore2 filename).length ≠ 3 ∨
        ∃ n num ts, rsplitUnderscore2 filename = [n, num, ts] ∧
          strptimeReolink ts.data = none) →
      split_reolink_filename cameraDefault filename =
        (cameraDefault, "01", REOLINK_SENTINEL)) := by
  constructor
  · rfl
  · intro filename hfail
    rcases hfail with hlen | ⟨n, num, ts, heq, hst⟩
    · rcases hsplit : rsplitUnderscore2 filename with _ | ⟨a, r1⟩
      · simp [split_reolink_filename, hsplit]
      · rcases r1 with _ | ⟨b, r2⟩
        · simp [split_reolink_filename, hsplit]
        · rcases r2 with _ | ⟨c2, r3⟩
          · simp [split_reolink_filename, hsplit]
          · rcases r3 with _ | ⟨d2, r4⟩
            · rw [hsplit] at hlen
              simp at hlen
            · simp [split_reolink_filename, hsplit]
    · simp [split_reolink_filename, heq, hst]

/-- Claim C7 witness: the fallback triple for "garbage.mp4" with default
camera name "X", via the theorem. -/
theorem C7_witness :
    split_reolink_filename "X" "garbage.mp4" = ("X", "01", REOLINK_SENTINEL)
    :=
  (C7_parse_fallback "X").2 "garbage.mp4" (Or.inl (by decide))

/-- Claim C8: parsing "Front Door_01_20210511082721" yields camera name
"Front Door", camera number "01" and the timestamp 2021-05-11 08:27:21, and
rendering the friendly name of that parsed clip with extension `ext` gives
"2021-05-11 08-27-21 (Front Door)." followed by `ext`. -/
theorem C8_parse_render_roundtrip (cameraDefault ext : String) :
    split_reolink_filename cameraDefault "Front Door_01_20210511082721" =
      ("Front Door", "01", ⟨2021, 5, 11, 8, 27, 21⟩) ∧
    friendly_filename "Front Door" ⟨2021, 5, 11, 8, 27, 21⟩ ext none =
      "2021-05-11 08-27-21 (Front Door)." ++ ext := by
  exact ⟨rfl, rfl⟩

/-- Claim C8 witness: the round trip at a concrete default camera name and
extension, via the theorem. -/
theorem C8_witness :
    split_reolink_filename "Default" "Front Door_01_20210511082721" =
      ("Front Door", "01", ⟨2021, 5, 11, 8, 27, 21⟩) ∧
    friendly_filename "Front Door" ⟨2021, 5, 11, 8, 27, 21⟩ "mp4" none =
      "2021-05-11 08-27-21 (Front Door)." ++ "mp4" :=
  C8_parse_render_roundtrip "Default" "mp4"

/-- Claim C9 counterexample: the code splits the configuration string on the
two-character separator ", " (comma and space), so the comma-separated
example "person,car" yields the single label "person,car" instead of the
two labels "person" and "car". -/
theorem C9_counterexample :
    VALID_DETECTION_LABELS "person,car" = ["person,car"] ∧
    VALID_DETECTION_LABELS "person,car" ≠ ["person", "car"] := by
  refine ⟨by decide, by decide⟩

/-- Claim C9 (amended): the valid-labels set is the configuration string
split on the separator ", " (comma and space, not a bare comma): for every
nonempty list of labels none of which contains the separator, the
configuration string obtained by joining them with ", " parses back to
exactly those labels, each as its own element. -/
theorem C9_joined_labels (labels : List String) (hne : labels ≠ [])
    (hsep : ∀ l ∈ labels, noCommaSpace l.data = true) :
    VALID_DETECTION_LABELS
      (String.mk (joinCommaSpace (labels.map String.data))) = labels := by
  unfold VALID_DETECTION_LABELS
  rw [show (String.mk (joinCommaSpace (labels.map String.data))).data =
    joinCommaSpace (labels.map String.data) from rfl]
  rw [splitCommaSpace_joinCommaSpace (labels.map String.data)
    (by simpa using hne)
    (by
      intro l hl
      rcases List.mem_map.mp hl with ⟨s, hs, rfl⟩
      exact hsep s hs)]
  rw [List.map_map]
  rw [show ((fun cs => String.mk cs) ∘ String.data) = id from rfl]
  exact List.map_id labels

/-- Claim C9 witness: the labels "person" and "car" joined with ", " parse
back to themselves, via the theorem. -/
theorem C9_witness :
    VALID_DETECTION_LABELS
      (String.mk (joinCommaSpace (["person", "car"].map String.data))) =
      ["person", "car"] :=
  C9_joined_labels ["person", "car"] (by decide) (by decide)
